import Mathlib

/-!
Verification of the cron-payments scheduler plugin
(`electrum/plugins/cron_pay/qt.py`).

The embedding models the plugin's persistence layer (`read_schedule_file`,
`write_schedule_file`), its timer registry (`self.scheduled_tasks`,
`is_task_started`), and its scheduling passes (`start_scheduler`,
`cancel_started_task`, `schedule_next_task`, `execute_payment`).

Modelling conventions:

* JSON values are modelled at the granularity the plugin manipulates them.
  An invoice is an association list of fields; the field values that occur
  in this plugin are integers, strings and the list of transaction outputs.
  Dictionary access `inv[k]` raises `KeyError` when the key is absent,
  modelled with `Except`.
* The `json` module is external to the repository.  `json.dumps` followed by
  `json.loads` is the identity on JSON-representable data, so the persisted
  file is modelled by the parse result of its content: `FileState.parsed v`
  stands for a readable file whose content parses to the value `v`,
  `FileState.malformed` for readable content on which `json.loads` raises
  (this includes the empty file and every proper prefix of a serialized
  object, i.e. truncated writes), `FileState.unreadable` for a file whose
  open/read raises, and `FileState.missing` for an absent file.
* `croniter` is an external library.  `croniter(cron, now)` followed by
  `get_next(datetime)` is modelled by an oracle of type `CronNext`
  returning either the next fire instant (a timestamp in whole seconds) or
  the raised error (`CroniterBadCronError` for a malformed field,
  `CroniterBadDateError` when no matching instant is found in the search
  horizon).  The theorems quantify over the oracle.
* Timestamps and delays are in whole seconds (`Int`).  Python's
  `timedelta.seconds` attribute is the normalized seconds component,
  `(next - now) mod 86400` with floor division, which `Int.emod` matches.
-/

/-- One entry of an on-chain invoice's `outputs` list; the plugin reads the
keys `address` and `value_sats` of each output. -/
structure OutputRec where
  address : String
  value_sats : Int
deriving DecidableEq

/-- A JSON field value as it occurs inside this plugin's invoices:
an integer, a string, or the list of outputs of an on-chain invoice. -/
inductive FieldVal where
  | fint (n : Int)
  | fstr (s : String)
  | fouts (xs : List OutputRec)
deriving DecidableEq

/-- An invoice dictionary: an association list from key to field value.
An absent key models a dictionary without that key (`KeyError` on access). -/
abbrev Invoice := List (String × FieldVal)

/-- Python exceptions that can escape the modelled functions. -/
inductive PyExc where
  | keyError (k : String)
  | fileNotFound
  | cronBadCron
  | cronBadDate
  | typeMismatch
  | unknownType
deriving DecidableEq

/-- Errors raised by the external `croniter` library: a malformed cron field
(`CroniterBadCronError`, the spec's InvalidSpec) or no matching future
instant (`CroniterBadDateError`, the spec's Unsatisfiable). -/
inductive CronError where
  | invalidSpec
  | unsatisfiable
deriving DecidableEq

/-- Decidable equality for `Except`, needed to evaluate the modelled
functions on concrete inputs. -/
instance {ε α : Type} [DecidableEq ε] [DecidableEq α] :
    DecidableEq (Except ε α) := fun x y =>
  match x, y with
  | .error a, .error b =>
    if h : a = b then isTrue (by rw [h])
    else isFalse fun hh => by cases hh; exact h rfl
  | .ok a, .ok b =>
    if h : a = b then isTrue (by rw [h])
    else isFalse fun hh => by cases hh; exact h rfl
  | .error _, .ok _ => isFalse fun hh => by cases hh
  | .ok _, .error _ => isFalse fun hh => by cases hh

/-- The five cron fields of a persisted schedule record, as written by
`ScheduleDialog.as_dict` (keys minute, hour, day, month, week). -/
structure Schedule where
  minute : String
  hour : String
  day : String
  month : String
  week : String
deriving DecidableEq

/-- One record of the persisted `items` list: an invoice dictionary and a
schedule dictionary, as appended by `ScheduleButton._on_clicked`. -/
structure CronItem where
  invoice : Invoice
  schedule : Schedule
deriving DecidableEq

/-- A value stored under a key of the persisted top-level dictionary.  The
plugin only ever writes the key `items` holding a list of task records;
`other` stands for any other JSON value found in the file (tagged so that
distinct junk values stay distinct). -/
inductive DocVal where
  | items (xs : List CronItem)
  | other (tag : Nat)
deriving DecidableEq

/-- The persisted top-level dictionary (a JSON object). -/
abbrev SchedDict := List (String × DocVal)

/-- A parsed top-level JSON value: an object, or any non-object value. -/
inductive TopVal where
  | tdict (d : SchedDict)
  | tother (tag : Nat)
deriving DecidableEq

/-- The state of the schedule file on disk, by how reading it behaves:
absent, unreadable, readable but unparsable, or parsed to a value. -/
inductive FileState where
  | missing
  | unreadable
  | malformed
  | parsed (v : TopVal)
deriving DecidableEq

/-- The filesystem as the plugin sees it: whether the user directory that
should contain the schedule file exists, and the schedule file's state. -/
structure FS where
  dirExists : Bool
  file : FileState
deriving DecidableEq

/-- `os.path.exists(schedule_path)`. -/
def fileExistsB : FileState → Bool
  | .missing => false
  | _ => true

/-- Model of `read_schedule_file` (qt.py lines 64-76): returns the empty
dictionary when the file is missing, when open/read or `json.loads` raises
(the bare `except` at line 72), or when the parsed value is not a
dictionary (line 74); otherwise returns the parsed dictionary as is.
The function is total: no exception escapes. -/
def read_schedule_file : FileState → SchedDict
  | .missing => []
  | .unreadable => []
  | .malformed => []
  | .parsed (.tother _) => []
  | .parsed (.tdict d) => d

/-- Model of `write_schedule_file` (qt.py lines 79-88): when the containing
directory exists the file is rewritten in place with the serialized
dictionary (then `chmod` restricts permissions, which does not change the
content).  When the directory is missing, `open(path, "w")` raises
`FileNotFoundError`; the handler re-raises only if the file exists
afterwards (line 87), so with the file absent the exception is swallowed
and nothing is persisted. -/
def write_schedule_file (d : SchedDict) (fs : FS) : Except PyExc FS :=
  if fs.dirExists then
    .ok { fs with file := .parsed (.tdict d) }
  else
    if fileExistsB fs.file then .error .fileNotFound
    else .ok fs

/-- The filesystem states a crash during `write_schedule_file` can leave
behind, in program order.  The write opens the destination file itself with
mode "w" (truncating it) and then writes the serialized text: a crash
before the `open` leaves the old file, a crash after the `open` but before
the write completes leaves an empty or partial file — both unparsable,
since every proper prefix of the serialized object is malformed JSON — and
a crash after the write leaves the new content.  There is no temporary
file and no rename step.  With the directory missing the `open` raises
before touching anything. -/
def write_crash_states (d : SchedDict) (fs : FS) : List FS :=
  if fs.dirExists then
    [ fs,
      { fs with file := .malformed },
      { fs with file := .parsed (.tdict d) } ]
  else
    [ fs ]

/-- `current_schedule.get('items', [])` as used by the scheduler passes:
the task records under the key `items`, or the empty list when the key is
absent.  (A non-list value under `items` would make the subsequent `for`
loop raise; the claims only exercise list-valued `items`.) -/
def get_items (d : SchedDict) : List CronItem :=
  match d.lookup "items" with
  | some (.items xs) => xs
  | _ => []

/-- The top-level dictionary the plugin persists for a task list: a single
key `items` holding the records. -/
def scheduleDict (xs : List CronItem) : SchedDict :=
  [("items", DocVal.items xs)]

/-- `PR_TYPE_ONCHAIN` from `electrum.util`. -/
def PR_TYPE_ONCHAIN : Int := 0

/-- `PR_TYPE_LN` from `electrum.util`. -/
def PR_TYPE_LN : Int := 2

/-- Dictionary access `inv[k]`: the value, or `KeyError` when absent. -/
def iget (inv : Invoice) (k : String) : Except PyExc FieldVal :=
  match inv.lookup k with
  | some v => .ok v
  | none => .error (.keyError k)

/-- Dictionary access with default, `inv.get(k, d)`: never raises. -/
def igetD (inv : Invoice) (k : String) (d : FieldVal) : FieldVal :=
  match inv.lookup k with
  | some v => v
  | none => d

/-- Python truthiness of a field value: zero, the empty string and the
empty list are falsy. -/
def truthy : FieldVal → Bool
  | .fint n => decide (n ≠ 0)
  | .fstr s => decide (s ≠ "")
  | .fouts xs => !xs.isEmpty

/-- Python's `(next_time - datetime.now()).seconds` (qt.py lines 604-605,
651-652, 662): the *seconds component* of the normalized timedelta, not its
total duration.  For a difference of `next - now` seconds this component is
`(next - now) mod 86400` with floor semantics, so whole days are dropped. -/
def transaction_delay (now next : Int) : Int :=
  (next - now) % 86400

/-- One entry of `self.scheduled_tasks`: the timer handle returned by
`loop.call_later` (modelled as a numeric id plus the delay it was armed
with) together with the task record it will fire. -/
structure ArmedTask where
  tid : Nat
  delay : Int
  item : CronItem
deriving DecidableEq

/-- The scheduler's in-memory registry (`self.scheduled_tasks`) plus a
counter supplying fresh timer ids. -/
structure SchedulerState where
  tasks : List ArmedTask
  nextId : Nat
deriving DecidableEq

/-- Model of `Plugin.is_task_started` (qt.py lines 582-586): whether some
registry entry carries a record equal to `c`.  The comparison `i ==
cron_item` is full structural equality of the record, invoice and schedule
included. -/
def is_task_started (ts : List ArmedTask) (c : CronItem) : Bool :=
  ts.any fun e => decide (e.item = c)

/-- The external `croniter` library as an oracle: given a schedule and the
current time, either the next fire instant strictly after it or the raised
error (malformed spec / no matching instant in the horizon). -/
abbrev CronNext := Schedule → Int → Except CronError Int

/-- The loop body of `Plugin.start_scheduler` (qt.py lines 597-610): for
each record of the persisted list, skip it when an equal record is already
registered; otherwise ask croniter for the next fire instant — an error
propagates out of the pass immediately, keeping the timers armed so far —
and register a timer with delay `timedelta.seconds`. -/
def start_scheduler_loop (cn : CronNext) (now : Int) :
    List CronItem → SchedulerState → SchedulerState × Option CronError
  | [], st => (st, none)
  | c :: rest, st =>
    if is_task_started st.tasks c then
      start_scheduler_loop cn now rest st
    else
      match cn c.schedule now with
      | .error e => (st, some e)
      | .ok next =>
        start_scheduler_loop cn now rest
          ⟨st.tasks ++ [⟨st.nextId, transaction_delay now next, c⟩], st.nextId + 1⟩

/-- Model of `Plugin.start_scheduler` (qt.py lines 588-611): read the
schedule file and arm every not-yet-registered record of its `items` list.
(The import guard at lines 589-592 is assumed satisfied: croniter is
available, modelled by the oracle.) -/
def start_scheduler (cn : CronNext) (now : Int) (file : FileState)
    (st : SchedulerState) : SchedulerState × Option CronError :=
  start_scheduler_loop cn now (get_items (read_schedule_file file)) st

/-- The condition at qt.py line 616, `['type'] == PR_TYPE_ONCHAIN`: in
Python this compares the one-element list containing the string 'type'
with the integer constant, which is False for every entry — the intended
`inv['type']` lookup is missing.  Modelled by the constant the comparison
evaluates to. -/
def type_list_eq_PR_TYPE_ONCHAIN : Bool := false

/-- Model of `Plugin.cancel_started_task` (qt.py lines 613-627):
walk `self.scheduled_tasks`; on the first entry whose invoice matches the
displayed address, amount string and message, remove it and cancel its
timer (`break` ends the walk).  Because the branch condition at line 616
is the constant `type_list_eq_PR_TYPE_ONCHAIN`, every entry is matched by
the lightning arm, whose `inv['pubkey']` access raises `KeyError` on an
on-chain invoice once the amount string matches (Python's `and`
short-circuits, so the lookup happens only then).  `fmt` models
`self.main_window.format_amount`. -/
def cancel_started_task (fmt : FieldVal → String)
    (address amount message : String) :
    List ArmedTask → Except PyExc (List ArmedTask)
  | [] => .ok []
  | e :: rest =>
    if type_list_eq_PR_TYPE_ONCHAIN then do
      -- dead branch (qt.py lines 617-621), kept for fidelity: on-chain
      -- matching against the first output's address
      let amt ← iget e.item.invoice "amount"
      if fmt amt = amount then
        match iget e.item.invoice "outputs" with
        | .error err => .error err
        | .ok (.fouts (o :: _)) =>
          if o.address = address then do
            let msg ← iget e.item.invoice "message"
            if msg = .fstr message then
              .ok rest
            else do
              let rest' ← cancel_started_task fmt address amount message rest
              .ok (e :: rest')
          else do
            let rest' ← cancel_started_task fmt address amount message rest
            .ok (e :: rest')
        | .ok _ => .error .typeMismatch
      else do
        let rest' ← cancel_started_task fmt address amount message rest
        .ok (e :: rest')
    else do
      -- live branch (qt.py lines 622-627): lightning-style matching on
      -- `pubkey`, taken for every entry
      let amt ← iget e.item.invoice "amount"
      if fmt amt = amount then do
        let pk ← iget e.item.invoice "pubkey"
        if pk = .fstr address then do
          let msg ← iget e.item.invoice "message"
          if msg = .fstr message then
            .ok rest
          else do
            let rest' ← cancel_started_task fmt address amount message rest
            .ok (e :: rest')
        else do
          let rest' ← cancel_started_task fmt address amount message rest
          .ok (e :: rest')
      else do
        let rest' ← cancel_started_task fmt address amount message rest
        .ok (e :: rest')

/-- The exception a croniter error surfaces as. -/
def cronExc : CronError → PyExc
  | .invalidSpec => .cronBadCron
  | .unsatisfiable => .cronBadDate

/-- Outcome of processing one store record inside
`Plugin.schedule_next_task`: skipped (already registered, or not matching
the fired task), armed (a new timer was registered, giving the new
registry), or failed (an exception propagates out of the loop). -/
inductive StepRes where
  | skip
  | armed (st' : SchedulerState)
  | failed (e : PyExc)
deriving DecidableEq

/-- One iteration of the loop of `Plugin.schedule_next_task` (qt.py lines
639-668) for the record `c`, matching it against the fired task's invoice
`curinv`: skip when an equal record is registered (line 640); compare
`type`, `amount` and `message` with short-circuit evaluation (line 644, a
missing key raising `KeyError`); for an on-chain record with non-empty
outputs on both sides compare the first output's address (lines 645-646);
for a lightning record compare `rhash`, `pubkey` and `amount` (lines
656-657, the third conjunct repeating the pure `amount` lookups already
known equal here); any other combination — including an on-chain record
whose `outputs` is empty or absent — raises the unknown-type exception
(line 668).  On a match, croniter errors propagate; otherwise a timer is
registered with delay `timedelta.seconds`. -/
def schedule_next_task_step (cn : CronNext) (now : Int) (curinv : Invoice)
    (c : CronItem) (st : SchedulerState) : StepRes :=
  if is_task_started st.tasks c then .skip
  else
    match iget c.invoice "type" with
    | .error e => .failed e
    | .ok ti =>
    match iget curinv "type" with
    | .error e => .failed e
    | .ok tc =>
    if ti = tc then
      match iget c.invoice "amount" with
      | .error e => .failed e
      | .ok ai =>
      match iget curinv "amount" with
      | .error e => .failed e
      | .ok ac =>
      if ai = ac then
        match iget c.invoice "message" with
        | .error e => .failed e
        | .ok mi =>
        match iget curinv "message" with
        | .error e => .failed e
        | .ok mc =>
        if mi = mc then
          if ti = .fint PR_TYPE_ONCHAIN
              ∧ truthy (igetD c.invoice "outputs" (.fouts [])) = true
              ∧ truthy (igetD curinv "outputs" (.fouts [])) = true then
            match igetD c.invoice "outputs" (.fouts []),
                  igetD curinv "outputs" (.fouts []) with
            | .fouts (o1 :: _), .fouts (o2 :: _) =>
              if o1.address = o2.address then
                match cn c.schedule now with
                | .error e => .failed (cronExc e)
                | .ok nx =>
                  .armed ⟨st.tasks ++ [⟨st.nextId, transaction_delay now nx, c⟩],
                          st.nextId + 1⟩
              else .skip
            | _, _ => .failed .typeMismatch
          else if ti = .fint PR_TYPE_LN then
            match iget c.invoice "rhash" with
            | .error e => .failed e
            | .ok ri =>
            match iget curinv "rhash" with
            | .error e => .failed e
            | .ok rc =>
            if ri = rc then
              match iget c.invoice "pubkey" with
              | .error e => .failed e
              | .ok pi =>
              match iget curinv "pubkey" with
              | .error e => .failed e
              | .ok pc =>
              if pi = pc then
                match cn c.schedule now with
                | .error e => .failed (cronExc e)
                | .ok nx =>
                  .armed ⟨st.tasks ++ [⟨st.nextId, transaction_delay now nx, c⟩],
                          st.nextId + 1⟩
              else .skip
            else .skip
          else .failed .unknownType
        else .skip
      else .skip
    else .skip

/-- Events emitted on the scheduling thread during `execute_payment`, in
program order.  `lnPayEnqueued` is `do_pay_ln` handing the payment task to
the wallet worker thread and returning at once (qt.py lines 523-528);
`executorCalled` / `executorReturned` bracket the synchronous on-chain
broadcast (`do_broadcast_transaction` is invoked directly at line 570, its
network errors caught and reported as a failure result, lines 536-541);
`timerArmed` is a `loop.call_later` registration in
`schedule_next_task`. -/
inductive Event where
  | lnPayEnqueued
  | executorCalled
  | executorReturned (ok : Bool)
  | timerArmed (c : CronItem)
deriving DecidableEq

/-- The loop of `Plugin.schedule_next_task` (qt.py lines 629-668) over the
persisted records: it has no `break`, so every matching not-yet-registered
record is armed; a raised exception stops the loop, keeping the timers
armed so far. -/
def schedule_next_task_loop (cn : CronNext) (now : Int) (curinv : Invoice) :
    List CronItem → SchedulerState → SchedulerState × List Event × Option PyExc
  | [], st => (st, [], none)
  | c :: rest, st =>
    match schedule_next_task_step cn now curinv c st with
    | .skip => schedule_next_task_loop cn now curinv rest st
    | .failed e => (st, [], some e)
    | .armed st' =>
      let r := schedule_next_task_loop cn now curinv rest st'
      (r.1, .timerArmed c :: r.2.1, r.2.2)

/-- Model of `Plugin.schedule_next_task` (qt.py lines 629-668): re-read the
schedule file and re-arm the records matching the fired task's invoice. -/
def schedule_next_task (cn : CronNext) (now : Int) (file : FileState)
    (current_item : CronItem) (st : SchedulerState) :
    SchedulerState × List Event × Option PyExc :=
  schedule_next_task_loop cn now current_item.invoice
    (get_items (read_schedule_file file)) st

/-- The registry cleanup at qt.py lines 684-688: remove the first entry
whose record equals the fired one. -/
def remove_first_entry (c : CronItem) : List ArmedTask → List ArmedTask
  | [] => []
  | e :: rest => if e.item = c then rest else e :: remove_first_entry c rest

/-- Model of `Plugin.execute_payment` (qt.py lines 678-726), the fire
handler (`self.main_window` assumed known, line 680): remove the fired
record's registry entry; for a lightning invoice enqueue the payment on the
wallet worker thread and continue at once (`do_pay_ln` does not wait for a
result); for an on-chain invoice build and sign the transaction (the
wallet collaborators are modelled as succeeding) and broadcast it
synchronously, `broadcastOk` being the success/failure the executor
reports; any other invoice type raises (line 723).  Afterwards
`schedule_next_task` re-arms from the store, regardless of the reported
executor result. -/
def execute_payment (cn : CronNext) (now : Int) (file : FileState)
    (broadcastOk : Bool) (c : CronItem) (st : SchedulerState) :
    SchedulerState × List Event × Option PyExc :=
  let st1 : SchedulerState := ⟨remove_first_entry c st.tasks, st.nextId⟩
  match iget c.invoice "type" with
  | .error e => (st1, [], some e)
  | .ok t =>
    if t = .fint PR_TYPE_LN then
      let r := schedule_next_task cn now file c st1
      (r.1, .lnPayEnqueued :: r.2.1, r.2.2)
    else if t = .fint PR_TYPE_ONCHAIN then
      let r := schedule_next_task cn now file c st1
      (r.1, .executorCalled :: .executorReturned broadcastOk :: r.2.1, r.2.2)
    else (st1, [], some .unknownType)

/-- Helper for `rearm_after_executor_return`: `seen` records whether an
executor return has occurred so far. -/
def rearms_only_after_return : Bool → List Event → Bool
  | _, [] => true
  | seen, .timerArmed _ :: rest => seen && rearms_only_after_return seen rest
  | _, .executorReturned _ :: rest => rearms_only_after_return true rest
  | seen, _ :: rest => rearms_only_after_return seen rest

/-- Whether, in an event trace, every timer re-arm happens after some
executor call has returned — the sequential-execution guarantee. -/
def rearm_after_executor_return (tr : List Event) : Bool :=
  rearms_only_after_return false tr

/-- Whether the invoice carries a non-empty `outputs` list. -/
def hasNonemptyOuts (inv : Invoice) : Bool :=
  match inv.lookup "outputs" with
  | some (.fouts (_ :: _)) => true
  | _ => false

/-- A well-formed invoice dictionary as the plugin writes them: `amount`
and `message` present, and either an on-chain invoice with a non-empty
`outputs` list or a lightning invoice with `rhash` and `pubkey`. -/
def wfInvoice (inv : Invoice) : Bool :=
  (inv.lookup "amount").isSome && (inv.lookup "message").isSome &&
  ((decide (inv.lookup "type" = some (.fint PR_TYPE_ONCHAIN)) && hasNonemptyOuts inv) ||
   (decide (inv.lookup "type" = some (.fint PR_TYPE_LN)) &&
      (inv.lookup "rhash").isSome && (inv.lookup "pubkey").isSome))

/-- Task identity as the specification defines it (section 3,
PaymentDescriptor): same kind, same amount, same message, and same
recipient identity — the first output's address of an on-chain descriptor,
the invoice identity (`rhash`) of a network-invoice descriptor.  This
definition follows the spec's words, for comparison with the code's
matching, which in `is_task_started` compares entire records (schedule
included). -/
def specTaskIdentity (inv : Invoice) : Option (Int × FieldVal × FieldVal × String) :=
  match inv.lookup "type", inv.lookup "amount", inv.lookup "message" with
  | some (.fint k), some a, some m =>
    if k = PR_TYPE_ONCHAIN then
      match inv.lookup "outputs" with
      | some (.fouts (o :: _)) => some (k, a, m, o.address)
      | _ => none
    else if k = PR_TYPE_LN then
      match inv.lookup "rhash" with
      | some (.fstr r) => some (k, a, m, r)
      | _ => none
    else none
  | _, _, _ => none

/-- A daily cron schedule (midnight every day). -/
def schedDaily : Schedule := ⟨"0", "0", "*", "*", "*"⟩

/-- A weekly cron schedule (midnight every Sunday). -/
def schedWeekly : Schedule := ⟨"0", "0", "*", "*", "0"⟩

/-- A schedule whose minute field is malformed. -/
def schedBadMinute : Schedule := ⟨"x", "0", "*", "*", "*"⟩

/-- A well-formed on-chain invoice dictionary. -/
def invOnchain : Invoice :=
  [("type", .fint PR_TYPE_ONCHAIN), ("amount", .fint 100000),
   ("message", .fstr "rent"),
   ("outputs", .fouts [⟨"bc1qexampleaddr", 100000⟩])]

/-- A well-formed lightning invoice dictionary. -/
def invLN : Invoice :=
  [("type", .fint PR_TYPE_LN), ("amount", .fint 5000),
   ("message", .fstr "coffee"), ("rhash", .fstr "ab12"),
   ("pubkey", .fstr "02deadbeef"), ("invoice", .fstr "lnbc1example")]

/-- An on-chain task record with the daily schedule. -/
def itemOC : CronItem := ⟨invOnchain, schedDaily⟩

/-- The same on-chain payment descriptor with a different (weekly)
schedule: a different record carrying the same spec task identity. -/
def itemOC2 : CronItem := ⟨invOnchain, schedWeekly⟩

/-- A lightning task record with the daily schedule. -/
def itemLN : CronItem := ⟨invLN, schedDaily⟩

/-- An on-chain task record with the malformed schedule. -/
def itemBad : CronItem := ⟨invOnchain, schedBadMinute⟩

/-- A croniter oracle for which every schedule fires 60 seconds from now. -/
def cnOk : CronNext := fun _ _ => .ok 60

/-- A croniter oracle for which every schedule next fires two days away. -/
def cnTwoDays : CronNext := fun _ now => .ok (now + 172800)

/-- A croniter oracle that rejects the malformed minute field and lets
every other schedule fire 60 seconds from now. -/
def cnBadMinute : CronNext := fun s _ =>
  if s = schedBadMinute then .error .invalidSpec else .ok 60

/-- A concrete stand-in for `main_window.format_amount`: render the
satoshi integer as a decimal string. -/
def fmtSat : FieldVal → String
  | .fint n => toString n
  | _ => ""

/-- A schedule file whose content parses to the dictionary holding the
given records. -/
def fileWith (xs : List CronItem) : FileState :=
  .parsed (.tdict (scheduleDict xs))

/-- Claim C3: for every state of the persisted schedule file — missing,
unreadable, malformed JSON, or JSON of the wrong (non-dictionary) shape —
`read_schedule_file` returns the empty schedule and raises nothing (the
modelled function is total, mirroring the bare `except` of the source);
only a file parsing to a dictionary returns the stored content,
unchanged. -/
theorem read_schedule_file_never_raises_defaults_empty :
    read_schedule_file .missing = [] ∧
    read_schedule_file .unreadable = [] ∧
    read_schedule_file .malformed = [] ∧
    (∀ t : Nat, read_schedule_file (.parsed (.tother t)) = []) ∧
    (∀ d : SchedDict, read_schedule_file (.parsed (.tdict d)) = d) :=
  ⟨rfl, rfl, rfl, fun _ => rfl, fun _ => rfl⟩

/-- Claim C9: save followed by load is the identity on task lists: writing
the schedule dictionary for a non-empty list of well-formed records and
reading the resulting file yields back the same dictionary, whose `items`
are exactly the saved records.  The directory-exists hypothesis is the
normal operating state; see claim C10 for the missing-directory case. -/
theorem save_then_load_roundtrip (xs : List CronItem) (fs : FS)
    (_hne : xs ≠ []) (hdir : fs.dirExists = true) :
    ∃ fs', write_schedule_file (scheduleDict xs) fs = .ok fs' ∧
      read_schedule_file fs'.file = scheduleDict xs ∧
      get_items (read_schedule_file fs'.file) = xs := by
  refine ⟨{ fs with file := .parsed (.tdict (scheduleDict xs)) }, ?_, rfl, ?_⟩
  · simp [write_schedule_file, hdir]
  · simp [read_schedule_file, get_items, scheduleDict]

/-- Witness for the round-trip theorem at a concrete one-record list. -/
theorem save_then_load_roundtrip_app :
    ∃ fs', write_schedule_file (scheduleDict [itemOC]) ⟨true, .missing⟩ = .ok fs' ∧
      read_schedule_file fs'.file = scheduleDict [itemOC] ∧
      get_items (read_schedule_file fs'.file) = [itemOC] :=
  save_then_load_roundtrip [itemOC] ⟨true, .missing⟩ (by decide) rfl

/-- Claim C10: when the directory that should contain the schedule file
does not exist (so the file itself is absent), `write_schedule_file`
swallows the `FileNotFoundError` raised by `open` and returns normally
with the filesystem untouched: the task list passed to save is silently
discarded rather than reported, and a subsequent load yields the empty
schedule. -/
theorem save_missing_dir_silently_discards (d : SchedDict) (fs : FS)
    (hdir : fs.dirExists = false) (hfile : fs.file = .missing) :
    write_schedule_file d fs = .ok fs ∧ read_schedule_file fs.file = [] := by
  constructor
  · simp [write_schedule_file, hdir, hfile, fileExistsB]
  · rw [hfile]; rfl

/-- Witness for the silent-discard theorem at a concrete save. -/
theorem save_missing_dir_silently_discards_app :
    write_schedule_file (scheduleDict [itemOC]) ⟨false, .missing⟩
        = .ok ⟨false, .missing⟩ ∧
    read_schedule_file (FS.mk false .missing).file = [] :=
  save_missing_dir_silently_discards (scheduleDict [itemOC]) ⟨false, .missing⟩ rfl rfl

/-- Claim C2 fails on the code: `write_schedule_file` follows no
write-to-temp-then-rename discipline — it truncates the destination in
place — so among its crash states is a truncated (malformed) file that is
neither the previous complete content nor the new complete content, and
that `read_schedule_file` accepts without raising, returning the empty
schedule: the previously persisted non-empty task list is lost. -/
theorem write_crash_leaves_truncated_file :
    (⟨true, .malformed⟩ : FS) ∈
      write_crash_states (scheduleDict [itemLN])
        ⟨true, .parsed (.tdict (scheduleDict [itemOC]))⟩ ∧
    FileState.malformed ≠ .parsed (.tdict (scheduleDict [itemOC])) ∧
    FileState.malformed ≠ .parsed (.tdict (scheduleDict [itemLN])) ∧
    read_schedule_file .malformed = [] ∧
    scheduleDict [itemOC] ≠ [] := by decide

/-- Claim C2 amended: saving is not atomic.  With the directory present, a
crash during `write_schedule_file` leaves the file in one of exactly three
states: untouched (crash before the open), truncated or partially written —
malformed content that `read_schedule_file` maps to the empty schedule —
or holding the new complete content.  The malformed middle state exists
because the destination itself is opened in truncate mode; there is no
temporary file and no rename. -/
theorem write_crash_states_characterized (d : SchedDict) (fs : FS)
    (hdir : fs.dirExists = true) :
    ∀ s ∈ write_crash_states d fs,
      s.file = fs.file ∨ s.file = .malformed ∨ s.file = .parsed (.tdict d) := by
  intro s hs
  simp only [write_crash_states, hdir, if_true, List.mem_cons,
    List.not_mem_nil, or_false] at hs
  rcases hs with h | h | h <;> subst h
  · left; rfl
  · right; left; rfl
  · right; right; rfl

/-- Witness for the crash-state characterization at the truncated state. -/
theorem write_crash_states_characterized_app :
    (FS.mk true .malformed).file = (FS.mk true .missing).file ∨
    (FS.mk true .malformed).file = .malformed ∨
    (FS.mk true .malformed).file = .parsed (.tdict (scheduleDict [itemLN])) :=
  write_crash_states_characterized (scheduleDict [itemLN]) ⟨true, .missing⟩ rfl
    ⟨true, .malformed⟩ (by decide)

/-- Claim C4 states the intended behaviour but the code has a slip: the
delay passed to `loop.call_later` is `timedelta.seconds` — the normalized
seconds component, `(next - now) mod 86400` — not the full difference.
When the computed next fire instant is exactly two days away, the armed
timer's delay is 0 seconds, so the payment fires immediately instead of at
the computed instant. -/
theorem transaction_delay_drops_whole_days :
    transaction_delay 0 172800 = 0 ∧
    (start_scheduler cnTwoDays 0 (fileWith [itemOC]) ⟨[], 0⟩).1.tasks
      = [⟨0, 0, itemOC⟩] ∧
    (172800 : Int) - 0 ≠ 0 := by decide

/-- Claim C1 fails on the code: the duplicate-arming check
(`is_task_started`) compares entire records, not task identities.  Two
persisted records with the same payment descriptor — same kind, amount,
message and recipient, hence the same task identity in the spec's sense —
but different cron schedules are both armed by one `start_scheduler` pass,
so a single task identity holds two live timers. -/
theorem duplicate_identity_gets_two_timers :
    (start_scheduler cnOk 0 (fileWith [itemOC, itemOC2]) ⟨[], 0⟩).1.tasks.length
      = 2 ∧
    ((start_scheduler cnOk 0 (fileWith [itemOC, itemOC2]) ⟨[], 0⟩).1.tasks.map
        fun e => specTaskIdentity e.item.invoice)
      = [specTaskIdentity invOnchain, specTaskIdentity invOnchain] ∧
    specTaskIdentity invOnchain ≠ none ∧
    itemOC ≠ itemOC2 := by decide

/-- Helper for claim C1: an arming pass over records that all already have
a registered equal record changes nothing and reports nothing. -/
lemma start_scheduler_loop_all_started (cn : CronNext) (now : Int) :
    ∀ (l : List CronItem) (st : SchedulerState),
      (∀ i ∈ l, is_task_started st.tasks i = true) →
      start_scheduler_loop cn now l st = (st, none) := by
  intro l
  induction l with
  | nil => intro st _; rfl
  | cons c rest ih =>
    intro st h
    unfold start_scheduler_loop
    simp only [h c (List.mem_cons_self c rest), if_true]
    exact ih st fun i hi => h i (List.mem_cons_of_mem c hi)

/-- Claim C1 amended: the registry deduplicates by full record equality
(invoice and schedule both equal), not by descriptor identity.  Arming a
store in which every record already has an equal registered record is a
silent no-op: `start_scheduler` returns the registry unchanged and raises
nothing.  Two records that merely share the spec task identity but differ
in schedule are not deduplicated (see the accompanying counterexample), so
one identity can hold two live timers. -/
theorem start_scheduler_noop_when_record_already_armed (cn : CronNext)
    (now : Int) (file : FileState) (st : SchedulerState)
    (h : ∀ i ∈ get_items (read_schedule_file file),
          is_task_started st.tasks i = true) :
    start_scheduler cn now file st = (st, none) :=
  start_scheduler_loop_all_started cn now _ st h

/-- Witness for the no-op theorem: re-running the pass with the only
record already armed leaves the one-timer registry unchanged. -/
theorem start_scheduler_noop_when_record_already_armed_app :
    start_scheduler cnOk 0 (fileWith [itemOC]) ⟨[⟨0, 60, itemOC⟩], 1⟩
      = (⟨[⟨0, 60, itemOC⟩], 1⟩, none) :=
  start_scheduler_noop_when_record_already_armed cnOk 0 (fileWith [itemOC])
    ⟨[⟨0, 60, itemOC⟩], 1⟩ (by decide)

/-- Claim C7 fails on the code: `start_scheduler` wraps no handler around
the croniter calls, so a record with a malformed cron spec raises out of
the arming pass.  With the malformed record first and a valid record after
it, the pass aborts with the error and the valid record is never armed. -/
theorem bad_spec_aborts_arming_pass :
    start_scheduler cnBadMinute 0 (fileWith [itemBad, itemOC]) ⟨[], 0⟩
      = (⟨[], 0⟩, some .invalidSpec) ∧
    is_task_started
      (start_scheduler cnBadMinute 0 (fileWith [itemBad, itemOC]) ⟨[], 0⟩).1.tasks
      itemOC = false := by decide

/-- Helper for claim C7: the arming pass over a concatenation runs the
second part from the state the first part reached, provided the first part
raised nothing. -/
lemma start_scheduler_loop_append (cn : CronNext) (now : Int) :
    ∀ (xs ys : List CronItem) (st st' : SchedulerState),
      start_scheduler_loop cn now xs st = (st', none) →
      start_scheduler_loop cn now (xs ++ ys) st
        = start_scheduler_loop cn now ys st' := by
  intro xs
  induction xs with
  | nil =>
    intro ys st st' h
    obtain rfl : st = st' := congrArg Prod.fst h
    rfl
  | cons c rest ih =>
    intro ys st st' h
    rw [List.cons_append]
    simp only [start_scheduler_loop] at h ⊢
    cases hs : is_task_started st.tasks c with
    | true =>
      simp only [hs, if_true] at h ⊢
      exact ih ys st st' h
    | false =>
      simp only [hs, Bool.false_eq_true, if_false] at h ⊢
      cases hcn : cn c.schedule now with
      | error e =>
        rw [hcn] at h
        exact absurd (congrArg Prod.snd h) (by simp)
      | ok nx =>
        rw [hcn] at h
        exact ih ys _ st' h

/-- Claim C7 amended: a record whose cron spec croniter rejects (malformed
field, or no matching future instant) stays unarmed, but the error is not
contained: it propagates out of `start_scheduler`, aborting the arming
pass.  Records processed before the failing one keep their new timers (the
registry mutation has already happened); the failing record and every
record after it in the list are not armed by the pass, and no in-app
operator report is produced beyond the raised exception. -/
theorem start_scheduler_raises_and_stops_on_bad_spec (cn : CronNext)
    (now : Int) (file : FileState) (st st' : SchedulerState)
    (pre post : List CronItem) (bad : CronItem) (e : CronError)
    (hitems : get_items (read_schedule_file file) = pre ++ bad :: post)
    (hpre : start_scheduler_loop cn now pre st = (st', none))
    (hnot : is_task_started st'.tasks bad = false)
    (hbad : cn bad.schedule now = .error e) :
    start_scheduler cn now file st = (st', some e) := by
  unfold start_scheduler
  rw [hitems, start_scheduler_loop_append cn now pre (bad :: post) st st' hpre]
  unfold start_scheduler_loop
  rw [hnot]
  simp only [Bool.false_eq_true, if_false, hbad]

/-- Witness for the abort theorem: a store holding a valid record, then
the malformed one, then another valid record; the pass arms the first,
raises on the second, and never reaches the third. -/
theorem start_scheduler_raises_and_stops_on_bad_spec_app :
    start_scheduler cnBadMinute 0 (fileWith [itemOC, itemBad, itemLN]) ⟨[], 0⟩
      = (⟨[⟨0, 60, itemOC⟩], 1⟩, some .invalidSpec) :=
  start_scheduler_raises_and_stops_on_bad_spec cnBadMinute 0
    (fileWith [itemOC, itemBad, itemLN]) ⟨[], 0⟩ ⟨[⟨0, 60, itemOC⟩], 1⟩
    [itemOC] [itemLN] itemBad .invalidSpec (by decide) (by decide) (by decide)
    (by decide)

/-- Claim C5 states the intended behaviour but the code has a slip: in
`cancel_started_task` the branch condition at qt.py line 616 reads a list
literal compared with the integer `PR_TYPE_ONCHAIN`, which is always
false, so an on-chain entry is matched by the lightning arm; once the
amount string matches, the `inv['pubkey']` lookup raises `KeyError`.
Cancelling an on-chain task therefore never cancels its timer: the
exception escapes and the registry keeps the armed entry (the store-side
removal in `on_cancel_button_clicked` happens before this call, so the
store and the registry disagree and the timer still fires). -/
theorem cancel_onchain_task_raises_keyerror :
    cancel_started_task fmtSat "bc1qexampleaddr" "100000" "rent"
        [⟨0, 60, itemOC⟩]
      = .error (.keyError "pubkey") ∧
    type_list_eq_PR_TYPE_ONCHAIN = false := by decide

/-- A registry search over a concatenation succeeds iff it succeeds in one
of the parts. -/
lemma is_task_started_append (ts us : List ArmedTask) (c : CronItem) :
    is_task_started (ts ++ us) c
      = (is_task_started ts c || is_task_started us c) := by
  simp [is_task_started, List.any_append]

/-- Unpacking of a non-empty `outputs` field. -/
lemma hasNonemptyOuts_spec (inv : Invoice) (h : hasNonemptyOuts inv = true) :
    ∃ o os, inv.lookup "outputs" = some (.fouts (o :: os)) := by
  unfold hasNonemptyOuts at h
  cases ho : inv.lookup "outputs" with
  | none => rw [ho] at h; cases h
  | some w =>
    rw [ho] at h
    cases w with
    | fint n => cases h
    | fstr s => cases h
    | fouts xs =>
      cases xs with
      | nil => cases h
      | cons o os => exact ⟨o, os, rfl⟩

/-- Unpacking of invoice well-formedness into the field equations the
scheduler's matching code reads. -/
lemma wfInvoice_spec (inv : Invoice) (h : wfInvoice inv = true) :
    (∃ a, inv.lookup "amount" = some a) ∧ (∃ m, inv.lookup "message" = some m) ∧
    ((inv.lookup "type" = some (.fint PR_TYPE_ONCHAIN) ∧
        ∃ o os, inv.lookup "outputs" = some (.fouts (o :: os))) ∨
     (inv.lookup "type" = some (.fint PR_TYPE_LN) ∧
        (∃ r, inv.lookup "rhash" = some r) ∧ ∃ p, inv.lookup "pubkey" = some p)) := by
  unfold wfInvoice at h
  rw [Bool.and_eq_true, Bool.and_eq_true] at h
  obtain ⟨⟨ha, hm⟩, ht⟩ := h
  refine ⟨Option.isSome_iff_exists.mp ha, Option.isSome_iff_exists.mp hm, ?_⟩
  rw [Bool.or_eq_true] at ht
  rcases ht with ht | ht
  · rw [Bool.and_eq_true, decide_eq_true_eq] at ht
    exact Or.inl ⟨ht.1, hasNonemptyOuts_spec inv ht.2⟩
  · rw [Bool.and_eq_true, Bool.and_eq_true, decide_eq_true_eq] at ht
    exact Or.inr ⟨ht.1.1, Option.isSome_iff_exists.mp ht.1.2,
      Option.isSome_iff_exists.mp ht.2⟩

/-- An armed step appends exactly one entry, carrying the processed
record, and bumps the id counter. -/
lemma schedule_next_task_step_armed_shape (cn : CronNext) (now : Int)
    (cur : Invoice) (c : CronItem) (st : SchedulerState) (st' : SchedulerState)
    (h : schedule_next_task_step cn now cur c st = .armed st') :
    ∃ d, st' = ⟨st.tasks ++ [⟨st.nextId, d, c⟩], st.nextId + 1⟩ := by
  unfold schedule_next_task_step at h
  repeat' split at h
  all_goals try cases h
  all_goals exact ⟨_, rfl⟩

/-- Processing one record never shrinks the registry: a record registered
before the whole `schedule_next_task` loop is still registered after it. -/
lemma schedule_next_task_loop_mono (cn : CronNext) (now : Int) (cur : Invoice) :
    ∀ (l : List CronItem) (st : SchedulerState) (c₀ : CronItem),
      is_task_started st.tasks c₀ = true →
      is_task_started (schedule_next_task_loop cn now cur l st).1.tasks c₀ = true := by
  intro l
  induction l with
  | nil => intro st c₀ h; exact h
  | cons c rest ih =>
    intro st c₀ h
    simp only [schedule_next_task_loop]
    cases hstep : schedule_next_task_step cn now cur c st with
    | skip => exact ih st c₀ h
    | failed e => exact h
    | armed st' =>
      obtain ⟨d, rfl⟩ := schedule_next_task_step_armed_shape cn now cur c st st' hstep
      dsimp only
      apply ih
      rw [is_task_started_append]
      rw [h]
      rfl

/-- All events the `schedule_next_task` loop emits are timer
registrations. -/
lemma schedule_next_task_loop_events_armed_only (cn : CronNext) (now : Int)
    (cur : Invoice) :
    ∀ (l : List CronItem) (st : SchedulerState) (ev : Event),
      ev ∈ (schedule_next_task_loop cn now cur l st).2.1 →
      ∃ i, ev = Event.timerArmed i := by
  intro l
  induction l with
  | nil => intro st ev h; cases h
  | cons c rest ih =>
    intro st ev h
    simp only [schedule_next_task_loop] at h
    cases hstep : schedule_next_task_step cn now cur c st with
    | skip => rw [hstep] at h; exact ih st ev h
    | failed e => rw [hstep] at h; cases h
    | armed st' =>
      rw [hstep] at h
      dsimp only at h
      rcases List.mem_cons.mp h with rfl | h'
      · exact ⟨c, rfl⟩
      · exact ih st' ev h'

/-- A fired record matched against its own invoice, not yet registered and
with croniter succeeding, is re-armed: the self-comparison of type, amount,
message and recipient fields succeeds for both invoice kinds. -/
lemma schedule_next_task_step_self (cn : CronNext) (now : Int) (c : CronItem)
    (st : SchedulerState) (nx : Int)
    (hwc : wfInvoice c.invoice = true)
    (hnx : cn c.schedule now = .ok nx)
    (hst : is_task_started st.tasks c = false) :
    schedule_next_task_step cn now c.invoice c st
      = .armed ⟨st.tasks ++ [⟨st.nextId, transaction_delay now nx, c⟩],
                st.nextId + 1⟩ := by
  obtain ⟨⟨a, ha⟩, ⟨m, hm⟩, hty⟩ := wfInvoice_spec _ hwc
  unfold schedule_next_task_step
  rcases hty with ⟨hty, o, os, ho⟩ | ⟨hty, ⟨rv, hrv⟩, pv, hpv⟩
  · simp [hst, iget, igetD, hty, ha, hm, ho, hnx, truthy, PR_TYPE_ONCHAIN]
  · simp [hst, iget, igetD, hty, ha, hm, hrv, hpv, hnx, truthy,
      PR_TYPE_ONCHAIN, PR_TYPE_LN]

/-- Under well-formedness of both invoices and a succeeding croniter
oracle, processing one record never raises: every `KeyError` lookup is
backed by a present key, matched on-chain records have non-empty outputs
on both sides, the invoice kind is known, and croniter succeeds. -/
lemma schedule_next_task_step_no_fail (cn : CronNext) (now : Int)
    (cur : Invoice) (c : CronItem) (st : SchedulerState) (e : PyExc)
    (hwc : wfInvoice c.invoice = true) (hwcur : wfInvoice cur = true)
    (hcn : ∃ nx, cn c.schedule now = .ok nx) :
    schedule_next_task_step cn now cur c st ≠ .failed e := by
  intro h
  obtain ⟨⟨ac, hac⟩, ⟨mc, hmc⟩, htyc⟩ := wfInvoice_spec _ hwc
  obtain ⟨⟨au, hau⟩, ⟨mu, hmu⟩, htyu⟩ := wfInvoice_spec _ hwcur
  obtain ⟨nx, hnx⟩ := hcn
  unfold schedule_next_task_step at h
  rcases htyc with ⟨htyc, o, os, ho⟩ | ⟨htyc, ⟨rv, hrv⟩, pv, hpv⟩
  · rcases htyu with ⟨htyu, ou, osu, hou⟩ | ⟨htyu, ⟨ru, hru⟩, pu, hpu⟩
    · simp [iget, igetD, truthy, PR_TYPE_ONCHAIN, PR_TYPE_LN,
        hac, hau, hmc, hmu, htyc, htyu, ho, hou, hnx] at h
      repeat' split at h
      all_goals cases h
    · simp [iget, igetD, truthy, PR_TYPE_ONCHAIN, PR_TYPE_LN,
        hac, hau, hmc, hmu, htyc, htyu, ho, hru, hpu, hnx] at h
  · rcases htyu with ⟨htyu, ou, osu, hou⟩ | ⟨htyu, ⟨ru, hru⟩, pu, hpu⟩
    · simp [iget, igetD, truthy, PR_TYPE_ONCHAIN, PR_TYPE_LN,
        hac, hau, hmc, hmu, htyc, htyu, hrv, hpv, hou, hnx] at h
    · simp [iget, igetD, truthy, PR_TYPE_ONCHAIN, PR_TYPE_LN,
        hac, hau, hmc, hmu, htyc, htyu, hrv, hpv, hru, hpu, hnx] at h
      repeat' split at h
      all_goals cases h

/-- Under well-formedness of both invoices and a succeeding croniter
oracle, processing one record either skips it or arms it. -/
lemma schedule_next_task_step_wf_cases (cn : CronNext) (now : Int)
    (cur : Invoice) (c : CronItem) (st : SchedulerState)
    (hwc : wfInvoice c.invoice = true) (hwcur : wfInvoice cur = true)
    (hcn : ∃ nx, cn c.schedule now = .ok nx) :
    schedule_next_task_step cn now cur c st = .skip ∨
    ∃ st', schedule_next_task_step cn now cur c st = .armed st' := by
  cases hcase : schedule_next_task_step cn now cur c st with
  | skip => exact Or.inl rfl
  | armed st' => exact Or.inr ⟨st', rfl⟩
  | failed e =>
    exact absurd hcase
      (schedule_next_task_step_no_fail cn now cur c st e hwc hwcur hcn)

/-- The `schedule_next_task` loop over a store of well-formed records with
a succeeding croniter oracle raises nothing, and leaves the fired record
registered whenever the store still contains it (unless an equal record
was registered before the loop started, in which case it stays put). -/
lemma schedule_next_task_loop_rearms (cn : CronNext) (now : Int)
    (c₀ : CronItem) (hwfc : wfInvoice c₀.invoice = true) :
    ∀ (l : List CronItem) (st : SchedulerState),
      (∀ i ∈ l, wfInvoice i.invoice = true) →
      (∀ i ∈ l, ∃ nx, cn i.schedule now = .ok nx) →
      (schedule_next_task_loop cn now c₀.invoice l st).2.2 = none ∧
      (c₀ ∈ l →
        is_task_started
            (schedule_next_task_loop cn now c₀.invoice l st).1.tasks c₀ = true
          ∨ is_task_started st.tasks c₀ = true) := by
  intro l
  induction l with
  | nil => exact fun st _ _ => ⟨rfl, fun h => absurd h (List.not_mem_nil c₀)⟩
  | cons c rest ih =>
    intro st hwf hcn
    have hwfr : ∀ i ∈ rest, wfInvoice i.invoice = true :=
      fun i hi => hwf i (List.mem_cons_of_mem c hi)
    have hcnr : ∀ i ∈ rest, ∃ nx, cn i.schedule now = .ok nx :=
      fun i hi => hcn i (List.mem_cons_of_mem c hi)
    simp only [schedule_next_task_loop]
    cases hcase : schedule_next_task_step cn now c₀.invoice c st with
    | skip =>
      obtain ⟨e1, e2⟩ := ih st hwfr hcnr
      refine ⟨e1, ?_⟩
      intro hmem
      rcases List.mem_cons.mp hmem with rfl | hmem'
      · cases hst : is_task_started st.tasks c₀ with
        | true => exact Or.inr rfl
        | false =>
          obtain ⟨nx, hnx⟩ := hcn c₀ (List.mem_cons_self c₀ rest)
          have harm := schedule_next_task_step_self cn now c₀ st nx
            hwfc hnx hst
          rw [hcase] at harm
          cases harm
      · exact e2 hmem'
    | armed st' =>
      obtain ⟨d, rfl⟩ :=
        schedule_next_task_step_armed_shape cn now c₀.invoice c st st' hcase
      dsimp only
      obtain ⟨e1, e2⟩ := ih _ hwfr hcnr
      refine ⟨e1, ?_⟩
      intro hmem
      rcases List.mem_cons.mp hmem with rfl | hmem'
      · left
        apply schedule_next_task_loop_mono
        rw [is_task_started_append]
        simp [is_task_started]
      · rcases e2 hmem' with hres | hst'
        · exact Or.inl hres
        · rw [is_task_started_append, Bool.or_eq_true] at hst'
          rcases hst' with h1 | h2
          · exact Or.inr h1
          · left
            apply schedule_next_task_loop_mono
            rw [is_task_started_append, h2]
            simp
    | failed e =>
      exact absurd hcase
        (schedule_next_task_step_no_fail cn now c₀.invoice c st e
          (hwf c (List.mem_cons_self c rest)) hwfc
          (hcn c (List.mem_cons_self c rest)))

/-- Claim C6: after every execution of a fired task that is still in the
store — for both values the executor reports, success and failure —
`execute_payment` raises nothing and the task ends up registered again for
its next occurrence; an executor failure never drops the task from the
schedule.  Hypotheses: the store's records are well-formed and croniter
succeeds on their schedules (otherwise the re-arm loop raises, see claim
C7's pattern), and the registry holds at most the one fired entry for this
record, which `execute_payment` removes before re-arming. -/
theorem execute_payment_rearms (cn : CronNext) (now : Int) (file : FileState)
    (ok : Bool) (c : CronItem) (st : SchedulerState)
    (hwf : ∀ i ∈ get_items (read_schedule_file file), wfInvoice i.invoice = true)
    (hcn : ∀ i ∈ get_items (read_schedule_file file),
            ∃ nx, cn i.schedule now = .ok nx)
    (hc : c ∈ get_items (read_schedule_file file))
    (hone : is_task_started (remove_first_entry c st.tasks) c = false) :
    (execute_payment cn now file ok c st).2.2 = none ∧
    is_task_started (execute_payment cn now file ok c st).1.tasks c = true := by
  have hwfc : wfInvoice c.invoice = true := hwf c hc
  have main := schedule_next_task_loop_rearms cn now c hwfc
    (get_items (read_schedule_file file))
    ⟨remove_first_entry c st.tasks, st.nextId⟩ hwf hcn
  obtain ⟨e1, e2⟩ := main
  have harm : is_task_started
      (schedule_next_task_loop cn now c.invoice
        (get_items (read_schedule_file file))
        ⟨remove_first_entry c st.tasks, st.nextId⟩).1.tasks c = true := by
    rcases e2 hc with h | h
    · exact h
    · rw [hone] at h; cases h
  obtain ⟨_, _, hty⟩ := wfInvoice_spec _ hwfc
  unfold execute_payment
  rcases hty with ⟨hty, _, _, _⟩ | ⟨hty, _, _⟩
  · simp only [iget, hty]
    rw [if_pos trivial]
    exact ⟨e1, harm⟩
  · simp only [iget, hty]
    rw [if_pos trivial]
    exact ⟨e1, harm⟩

/-- Witness for the re-arm theorem: a two-record store, the on-chain task
fired with the executor reporting failure; the task is re-armed and no
exception escapes. -/
theorem execute_payment_rearms_app :
    (execute_payment cnOk 0 (fileWith [itemOC, itemLN]) false itemOC
        ⟨[⟨0, 60, itemOC⟩], 1⟩).2.2 = none ∧
    is_task_started
      (execute_payment cnOk 0 (fileWith [itemOC, itemLN]) false itemOC
        ⟨[⟨0, 60, itemOC⟩], 1⟩).1.tasks itemOC = true :=
  execute_payment_rearms cnOk 0 (fileWith [itemOC, itemLN]) false itemOC
    ⟨[⟨0, 60, itemOC⟩], 1⟩ (by decide) (fun i _ => ⟨60, rfl⟩) (by decide)
    (by decide)

/-- Once an executor return has been seen, the sequential-execution check
accepts any remaining trace. -/
lemma rearms_only_after_return_true :
    ∀ tr : List Event, rearms_only_after_return true tr = true := by
  intro tr
  induction tr with
  | nil => rfl
  | cons e rest ih => cases e <;> simp [rearms_only_after_return, ih]

/-- Claim C8 fails on the code for network invoices: firing a lightning
task enqueues the payment on the wallet worker thread and re-arms the next
fire immediately, so the scheduling-thread trace re-arms without any
executor return before it — the next execution can start while the payment
is still in flight. -/
theorem ln_rearmed_before_executor_returns :
    (execute_payment cnOk 0 (fileWith [itemLN]) true itemLN ⟨[], 0⟩).2.1
      = [.lnPayEnqueued, .timerArmed itemLN] ∧
    rearm_after_executor_return [.lnPayEnqueued, .timerArmed itemLN] = false := by
  decide

/-- Claim C8 amended: executions of one task are strictly sequential only
for on-chain tasks, whose broadcast is invoked synchronously and returns
before any re-arm; for a network-invoice task the payment is merely
enqueued to the wallet worker and the next fire is armed at once, without
any executor return in the scheduling-thread trace, so two executions of
the same lightning task can overlap. -/
theorem executions_sequential_onchain_only :
    (∀ (cn : CronNext) (now : Int) (file : FileState) (ok : Bool)
        (c : CronItem) (st : SchedulerState),
        c.invoice.lookup "type" = some (.fint PR_TYPE_ONCHAIN) →
        rearm_after_executor_return
          (execute_payment cn now file ok c st).2.1 = true) ∧
    (∀ (cn : CronNext) (now : Int) (file : FileState) (ok : Bool)
        (c : CronItem) (st : SchedulerState) (b : Bool),
        c.invoice.lookup "type" = some (.fint PR_TYPE_LN) →
        Event.executorReturned b ∉ (execute_payment cn now file ok c st).2.1) := by
  constructor
  · intro cn now file ok c st hty
    unfold execute_payment
    simp only [iget, hty]
    rw [if_pos trivial]
    exact rearms_only_after_return_true _
  · intro cn now file ok c st b hty
    unfold execute_payment
    simp only [iget, hty]
    rw [if_pos trivial]
    try dsimp only
    intro hmem
    rcases List.mem_cons.mp hmem with h | h
    · cases h
    · obtain ⟨i, hi⟩ := schedule_next_task_loop_events_armed_only cn now
        c.invoice (get_items (read_schedule_file file))
        ⟨remove_first_entry c st.tasks, st.nextId⟩ (Event.executorReturned b) h
      cases hi

/-- Witness for the sequentiality theorem: the on-chain half at a concrete
fired task, and the lightning half at a concrete fired task. -/
theorem executions_sequential_onchain_only_app :
    rearm_after_executor_return
      (execute_payment cnOk 0 (fileWith [itemOC]) true itemOC ⟨[], 0⟩).2.1
        = true ∧
    Event.executorReturned true ∉
      (execute_payment cnOk 0 (fileWith [itemLN]) true itemLN ⟨[], 0⟩).2.1 :=
  ⟨executions_sequential_onchain_only.1 cnOk 0 (fileWith [itemOC]) true itemOC
      ⟨[], 0⟩ (by decide),
   executions_sequential_onchain_only.2 cnOk 0 (fileWith [itemLN]) true itemLN
      ⟨[], 0⟩ true (by decide)⟩
